import Mathlib

/-!
# Verification of the sites/groups entity core

Shallow embedding of the entity/validation/query core of the service
(`src/app/api/v1/sites.py`, `src/app/api/v1/groups.py`,
`src/app/infrastructure/validators.py`,
`src/app/infrastructure/services/site_service.py`), together with the
fastcrud helpers those endpoints call (`compute_offset`, `get_multi`,
`paginated_response`).

Modelling conventions:
* The relational store is a `List` of records; `db.get` / `scalar_one_or_none`
  on a primary key is first-match linear lookup (`findGroup`, `findSite`).
  Primary keys are `Nat`.
* The joined-table polymorphic site (base row in `sites` plus exactly one
  extension row in `sites_france`/`sites_italy`) is modelled as one wide
  record tagged by `country`; the per-country float payload columns
  (`max_power_megawatt`, `min_power_megawatt`, `useful_energy_at_1_megawatt`,
  `efficiency`) are inert payload that no verified operation branches on and
  are omitted from the record.
* Calendar dates are proleptic Gregorian ordinals (`Nat`), exactly the value
  of Python's `datetime.date.toordinal`; ordinal 1 is 0001-01-01, a Monday,
  so Python's `date.weekday` (Monday = 0) is `(ordinal - 1) % 7`.
* An HTTP 4xx raised by a handler is an `Except.error` carrying the
  corresponding `ApiError`; `204`/`200` success is `Except.ok` carrying the
  post-state (for writes) or the read value.
* The many-to-many `site_group` association rows of one site are the
  `groups : List Nat` field of its record, in insertion order.
-/

namespace App

/-- `SiteCountry` enum from `infrastructure/models/site.py`. -/
inductive SiteCountry where
  | france
  | italy
deriving DecidableEq, Repr

/-- `GroupType` enum from `infrastructure/models/group.py`. -/
inductive GroupType where
  | group1
  | group2
  | group3
deriving DecidableEq, Repr

/-- A row of the `groups` table (`infrastructure/models/group.py`):
primary key, optional classification type, optional parent reference
(the self-referential tree). -/
structure GroupRec where
  id : Nat
  type : Option GroupType
  parent_id : Option Nat
deriving DecidableEq, Repr

/-- A site row merged with its country extension (see module conventions):
primary key, name, optional installation date (Python date ordinal),
country discriminant, and the ids of the groups it is associated with. -/
structure SiteRec where
  id : Nat
  name : String
  installation_date : Option Nat
  country : SiteCountry
  groups : List Nat
deriving DecidableEq, Repr

/-- Primary-key lookup in the `groups` table (`db.get(Group, id)` /
`select(Group).where(Group.id == id)` with `scalar_one_or_none`). -/
def findGroup : List GroupRec → Nat → Option GroupRec
  | [], _ => none
  | g :: gs, i => if g.id = i then some g else findGroup gs i

/-- Primary-key lookup in the `sites` table. -/
def findSite : List SiteRec → Nat → Option SiteRec
  | [], _ => none
  | s :: ss, i => if s.id = i then some s else findSite ss i

/-- The 4xx failures the embedded handlers can raise, one constructor per
distinct `HTTPException` in the source, plus `noneTypeError` for the
`AttributeError` an handler raises by dereferencing a `None` result
(an unhandled exception, surfaced by the framework as a 500 — distinct
from every 4xx). -/
inductive ApiError where
  | siteNotFound
  | groupNotFound
  | parentNotFound
  | childNotFound
  | selfChild
  | cycleError
  | duplicateFrenchDate
  | italianWeekend
  | invalidAssociation
deriving DecidableEq, Repr

deriving instance DecidableEq for Except

/-! ## Validators (`infrastructure/validators.py`) -/

/-- Python `date.weekday` (Monday = 0) on a proleptic Gregorian ordinal. -/
def weekday (ordinal : Nat) : Nat := (ordinal - 1) % 7

/-- `validate_french_site_date` (validators.py): true iff no `FRANCE` site
other than `exclude` already has installation date `d`. -/
def validate_french_site_date (ss : List SiteRec) (d : Nat) (exclude : Option Nat) : Bool :=
  !(ss.any fun s =>
    decide (s.country = SiteCountry.france) && decide (s.installation_date = some d) &&
      (match exclude with
       | none => true
       | some i => decide (s.id ≠ i)))

/-- `validate_italian_site_date` (validators.py): the date must fall on a
weekend (`weekday >= 5`, i.e. Saturday or Sunday). -/
def validate_italian_site_date (d : Nat) : Bool :=
  weekday d ≥ 5

/-- `validate_site_group_association` (validators.py): the group must exist
and its type must not be `GROUP3` (a null type passes, since in Python
`None != GroupType.GROUP3`). The `siteId` argument is unused in the source. -/
def validate_site_group_association (gs : List GroupRec) (_siteId groupId : Nat) : Bool :=
  match findGroup gs groupId with
  | none => false
  | some g => decide (g.type ≠ some GroupType.group3)

/-! ## Site endpoints (`api/v1/sites.py`) -/

/-- Request body of `POST /sites/france` (`SiteFranceCreate`,
schemas/site.py); payload floats omitted per the module conventions. -/
structure SiteFranceCreate where
  name : String
  installation_date : Option Nat := none
deriving DecidableEq, Repr

/-- Request body of `POST /sites/italy` (`SiteItalyCreate`). -/
structure SiteItalyCreate where
  name : String
  installation_date : Option Nat := none
deriving DecidableEq, Repr

/-- `create_site_france` (sites.py): if a date is supplied and some row of
`sites_france` (i.e. some `FRANCE`-tagged site) has that exact date, raise
422 "Only one French site can be installed per day"; otherwise insert the
new site with the store-assigned id `newId`. -/
def create_site_france (ss : List SiteRec) (newId : Nat) (s : SiteFranceCreate) :
    Except ApiError (List SiteRec) :=
  match s.installation_date with
  | some d =>
    if ss.any fun t => decide (t.country = SiteCountry.france ∧ t.installation_date = some d) then
      .error .duplicateFrenchDate
    else
      .ok (ss ++ [⟨newId, s.name, some d, SiteCountry.france, []⟩])
  | none => .ok (ss ++ [⟨newId, s.name, none, SiteCountry.france, []⟩])

/-- `create_site_italy` (sites.py): if a date is supplied and its weekday is
`< 5`, raise 422 "Italian sites must be installed on weekends"; otherwise
insert. -/
def create_site_italy (ss : List SiteRec) (newId : Nat) (s : SiteItalyCreate) :
    Except ApiError (List SiteRec) :=
  match s.installation_date with
  | some d =>
    if weekday d < 5 then .error .italianWeekend
    else .ok (ss ++ [⟨newId, s.name, some d, SiteCountry.italy, []⟩])
  | none => .ok (ss ++ [⟨newId, s.name, none, SiteCountry.italy, []⟩])

/-- Result of `GET /sites/{site_id}` (`read_site`, sites.py). -/
inductive ReadSiteResult where
  | ok (s : SiteRec)
  | notFound
  | noneTypeError
deriving DecidableEq, Repr

/-- `read_site` (sites.py). The handler runs, in this order:
`site = ...scalar_one_or_none()`, then `if site.country == FRANCE ... elif
ITALY ...` (the extension merge — a no-op on the wide record), and only then
`if not site: raise HTTPException(404)`. When the id does not resolve,
`site` is `None` and `site.country` raises `AttributeError` before the 404
branch is reached, hence `noneTypeError`; the `notFound` branch is dead. -/
def read_site (ss : List SiteRec) (siteId : Nat) : ReadSiteResult :=
  match findSite ss siteId with
  | none => .noneTypeError
  | some site => .ok site

/-- `delete_site` (sites.py): 404 when absent, otherwise remove the row
(extension rows follow by `ON DELETE CASCADE`). -/
def delete_site (ss : List SiteRec) (siteId : Nat) : Except ApiError (List SiteRec) :=
  match findSite ss siteId with
  | none => .error .siteNotFound
  | some _ => .ok (ss.filter fun s => s.id ≠ siteId)

/-- Request body of `PATCH /sites/{site_id}` (`SiteBase`, schemas/site.py),
as parsed by pydantic with set-field tracking: `name` is required; for the
optional columns, `none` means the field was absent from the request (and is
skipped by fastcrud's `model_dump(exclude_unset=True)`), `some v` means the
value `v` was supplied. An explicitly-null `country` (which would violate
the NOT NULL column constraint) is not modelled; no claim depends on it. -/
structure SiteBase where
  name : String
  installation_date : Option Nat := none
  country : Option SiteCountry := none
deriving DecidableEq, Repr

/-- The row update performed by fastcrud's `FastCRUD.update`: supplied
fields overwrite the row's columns, absent fields are left unchanged. -/
def applyUpdate (s : SiteRec) (u : SiteBase) : SiteRec :=
  { s with
    name := u.name
    installation_date :=
      match u.installation_date with
      | some d => some d
      | none => s.installation_date
    country :=
      match u.country with
      | some c => c
      | none => s.country }

/-- `update_site` (sites.py): 404 when the id does not resolve, otherwise
write the supplied fields through `site_crud.update`. The handler performs
no validation of any kind between the existence check and the write. -/
def update_site (ss : List SiteRec) (siteId : Nat) (u : SiteBase) :
    Except ApiError (List SiteRec) :=
  match findSite ss siteId with
  | none => .error .siteNotFound
  | some _ => .ok (ss.map fun s => if s.id = siteId then applyUpdate s u else s)

/-- `add_site_to_group` (sites.py): 404 for a missing site or group; then,
with no validation of the group's type, append the group to the site's
association set unless it is already there; return 204 either way. -/
def add_site_to_group (ss : List SiteRec) (gs : List GroupRec) (siteId groupId : Nat) :
    Except ApiError (List SiteRec) :=
  match findSite ss siteId with
  | none => .error .siteNotFound
  | some site =>
    match findGroup gs groupId with
    | none => .error .groupNotFound
    | some _ =>
      if groupId ∈ site.groups then .ok ss
      else .ok (ss.map fun s =>
        if s.id = siteId then { s with groups := s.groups ++ [groupId] } else s)

/-- `add_site_to_group` from `services/site_service.py` — the service-layer
variant, imported by no route (dead code): it first runs
`validate_site_group_association` and raises 422 "Invalid association
between site and group" when it fails, then performs the same
lookup-and-append as the endpoint. -/
def service_add_site_to_group (ss : List SiteRec) (gs : List GroupRec) (siteId groupId : Nat) :
    Except ApiError (List SiteRec) :=
  if !(validate_site_group_association gs siteId groupId) then .error .invalidAssociation
  else
    match findGroup gs groupId with
    | none => .error .groupNotFound
    | some _ =>
      match findSite ss siteId with
      | none => .error .siteNotFound
      | some site =>
        if groupId ∈ site.groups then .ok ss
        else .ok (ss.map fun s =>
          if s.id = siteId then { s with groups := s.groups ++ [groupId] } else s)

/-! ## Group hierarchy endpoint (`api/v1/groups.py`) -/

/-- The ancestor walk of `add_child_to_group` (groups.py):
`current = parent; while current and current.parent_id: if current.parent_id
== child_id: raise 422 cycle; current = db.get(Group, current.parent_id)`.
The walk is fuel-bounded here because the Python loop's termination depends
on the store being cycle-free; with enough fuel (any bound on the ancestor
chain's length, e.g. witnessed by `reachesRoot`) the two agree. A dangling
parent reference makes `db.get` return `None` and the loop exit. -/
def cycleWalk (gs : List GroupRec) (childId : Nat) : Nat → Option GroupRec → Bool
  | _, none => false
  | 0, some _ => false
  | fuel + 1, some cur =>
    match cur.parent_id with
    | none => false
    | some q => q = childId || cycleWalk gs childId fuel (findGroup gs q)

/-- The ancestor chain of a group: the ids visited by following `parent_id`
links from (and excluding) the group itself, cut off by `fuel`. This is the
"ancestor chain" of the specification, stated independently of the
endpoint's loop. -/
def ancestors (gs : List GroupRec) : Nat → Option GroupRec → List Nat
  | _, none => []
  | 0, some _ => []
  | fuel + 1, some cur =>
    match cur.parent_id with
    | none => []
    | some q => q :: ancestors gs fuel (findGroup gs q)

/-- Whether following `parent_id` links from a group reaches, within `fuel`
steps, a group that has no parent (the walk "terminates at a root"; a
dangling reference or exhausted fuel is a failure). -/
def reachesRoot (gs : List GroupRec) : Nat → Option GroupRec → Bool
  | _, none => false
  | 0, some cur => cur.parent_id.isNone
  | fuel + 1, some cur =>
    match cur.parent_id with
    | none => true
    | some q => reachesRoot gs fuel (findGroup gs q)

/-- The committed write of `add_child_to_group`: `child.parent_id =
parent_id` on the row whose id is `childId`. -/
def setParentId (gs : List GroupRec) (childId parentId : Nat) : List GroupRec :=
  gs.map fun g => if g.id = childId then { g with parent_id := some parentId } else g

/-- `add_child_to_group` (groups.py), the `setParent` operation: 404 for a
missing parent or child; 422 "A group cannot be its own child" when the two
ids coincide; 422 cycle when the ancestor walk from the parent meets the
child; otherwise set the child's parent and commit. -/
def add_child_to_group (gs : List GroupRec) (parentId childId : Nat) :
    Except ApiError (List GroupRec) :=
  match findGroup gs parentId with
  | none => .error .parentNotFound
  | some parent =>
    match findGroup gs childId with
    | none => .error .childNotFound
    | some _ =>
      if parentId = childId then .error .selfChild
      else if cycleWalk gs childId gs.length (some parent) then .error .cycleError
      else .ok (setParentId gs childId parentId)

/-! ## Query engine (`read_sites` in sites.py with the fastcrud helpers) -/

/-- fastcrud's parsing of the bare `name=value` keyword filter that
`read_sites`/`read_groups` build (`filters["name"] = name`): a filter key
without an operator suffix is an equality comparison (`Site.name == value`),
applied in the store query. -/
def applyNameFilter (ss : List SiteRec) (name : Option String) : List SiteRec :=
  match name with
  | none => ss
  | some n => ss.filter fun s => decide (s.name = n)

/-- fastcrud `compute_offset`: `(page - 1) * items_per_page`. -/
def compute_offset (page items_per_page : Nat) : Nat := (page - 1) * items_per_page

/-- fastcrud `FastCRUD.get_multi`, restricted to the arguments `read_sites`
passes for the claims at hand (name filter, no sorting): apply the filters
in the store query, return the window `[offset, offset + limit)` of the
filtered rows as `data` and the filtered row count as `total_count`. -/
def get_multi (ss : List SiteRec) (offset limit : Nat) (name : Option String) :
    List SiteRec × Nat :=
  ((applyNameFilter ss name).drop offset |>.take limit, (applyNameFilter ss name).length)

/-- The response shape of fastcrud's `PaginatedListResponse`. -/
structure PaginatedResponse where
  data : List SiteRec
  page : Nat
  items_per_page : Nat
  total_count : Nat
  has_more : Bool
deriving DecidableEq, Repr

/-- fastcrud `paginated_response`: wraps the crud data, computing
`has_more = page * items_per_page < total_count`. -/
def paginated_response (crud_data : List SiteRec × Nat) (page items_per_page : Nat) :
    PaginatedResponse :=
  ⟨crud_data.1, page, items_per_page, crud_data.2,
    decide (page * items_per_page < crud_data.2)⟩

/-- `read_sites` (sites.py): `get_multi` at `offset = compute_offset(page,
items_per_page)` and `limit = items_per_page`, wrapped by
`paginated_response`. (The per-row country-extension merge the handler then
performs is the identity on the wide record, and the route's separate
`limit` query parameter is never used.) -/
def read_sites (ss : List SiteRec) (page items_per_page : Nat) (name : Option String) :
    PaginatedResponse :=
  paginated_response (get_multi ss (compute_offset page items_per_page) items_per_page name)
    page items_per_page

/-! ## Stated invariants -/

/-- At most one `FRANCE`-tagged site holds any given non-null installation
date: no two distinct rows are both French with the same non-null date. -/
def UniqueFrenchDates (ss : List SiteRec) : Prop :=
  ss.Pairwise fun a b =>
    a.country = SiteCountry.france → b.country = SiteCountry.france →
      ∀ d, a.installation_date = some d → b.installation_date ≠ some d

/-! ## Demo stores for concrete evaluations -/

/-- One French site with no date and no associations. -/
def demoSite1 : SiteRec := ⟨1, "Site A", none, SiteCountry.france, []⟩

/-- A single group of type `GROUP3`. -/
def demoGroups3 : List GroupRec := [⟨10, some GroupType.group3, none⟩]

/-- Two French sites with distinct installation dates 1 and 3. -/
def demoSitesFr : List SiteRec :=
  [⟨1, "Site A", some 1, SiteCountry.france, []⟩,
   ⟨2, "Site B", some 3, SiteCountry.france, []⟩]

/-- A site already associated with group 10. -/
def demoSiteInGroup : SiteRec := ⟨1, "Site A", none, SiteCountry.france, [10]⟩

/-- A single group of type `GROUP1`. -/
def demoGroups1 : List GroupRec := [⟨10, some GroupType.group1, none⟩]

/-- A three-group chain: 1 is a root, 2's parent is 1, 3's parent is 2. -/
def demoForest : List GroupRec :=
  [⟨1, none, none⟩, ⟨2, none, some 1⟩, ⟨3, none, some 2⟩]

/-- Three sites, for paging through with two items per page. -/
def demoSites9 : List SiteRec :=
  [⟨1, "Site A", none, SiteCountry.france, []⟩,
   ⟨2, "Site B", none, SiteCountry.italy, []⟩,
   ⟨3, "Site C", none, SiteCountry.france, []⟩]

/-! ## Theorems -/

/-- Claim C1: the spec requires associating a site with a `GROUP3` group to
fail with a validation error, and the repository's own
`validate_site_group_association` (validators.py) and service-layer
`add_site_to_group` (site_service.py) implement exactly that check — but
the route that actually serves `POST /sites/{id}/groups/{id}` never calls
either: on an existing site and an existing `GROUP3` group it returns
success and creates the association. Evaluated at the failing input:
the validator says invalid, the dead service layer raises 422, yet the
endpoint succeeds and records the association. -/
theorem add_site_to_group_skips_group3_check :
    validate_site_group_association demoGroups3 1 10 = false
    ∧ add_site_to_group [demoSite1] demoGroups3 1 10
        = .ok [⟨1, "Site A", none, SiteCountry.france, [10]⟩]
    ∧ service_add_site_to_group [demoSite1] demoGroups3 1 10
        = .error .invalidAssociation := by
  decide

/-- Claim C3: the spec (and the repository's active test
`test_read_site_not_found`) require `readSite` on an absent id — in
particular right after a successful `deleteSite` — to fail with `NotFound`;
but the handler reads `site.country` before its `if not site` check, so the
absent case raises `AttributeError` (`noneTypeError`, a 500) and the 404
branch is unreachable. Evaluated at the failing input: delete succeeds,
the subsequent read crashes instead of returning `notFound`. -/
theorem read_site_after_delete_crashes :
    delete_site [demoSite1] 1 = .ok []
    ∧ read_site [] 1 = .noneTypeError
    ∧ ReadSiteResult.noneTypeError ≠ ReadSiteResult.notFound := by
  decide

/-- Claim C4: the spec requires `updateSite` to re-run the per-country date
invariant when `installationDate` changes (and the repository's dead
service-layer `update_site` does exactly that via
`validate_french_site_date`), but the PATCH route performs no date check:
evaluated at the failing input — site 1 (France, date 1) updated to date 3
while site 2 (France) already holds date 3 — the validator rejects the new
date, yet the endpoint succeeds and leaves two French sites sharing date 3. -/
theorem update_site_skips_date_check :
    validate_french_site_date demoSitesFr 3 (some 1) = false
    ∧ update_site demoSitesFr 1 ⟨"Site A", some 3, none⟩
        = .ok [⟨1, "Site A", some 3, SiteCountry.france, []⟩,
               ⟨2, "Site B", some 3, SiteCountry.france, []⟩] := by
  decide

/-- Claim C5 (counterexample): the claim says any `updateSite` call
attempting to change `country` fails with `ValidationError`; here a
concrete update supplying `country = italy` on a French site succeeds
(no error) and overwrites the stored discriminant. -/
theorem update_site_changes_country_cex :
    update_site [demoSite1] 1 ⟨"Site A", none, some SiteCountry.italy⟩
      = .ok [⟨1, "Site A", none, SiteCountry.italy, []⟩] := by
  decide

/-- Claim C5 (amended): `update_site` performs no country-immutability
check: whenever the site exists and the request supplies a `country` value,
the call succeeds and every stored row with that id ends up carrying the
supplied country — the discriminant is simply overwritten, never rejected. -/
theorem update_site_overwrites_country (ss : List SiteRec) (siteId : Nat)
    (u : SiteBase) (c : SiteCountry)
    (hset : u.country = some c) (hex : (findSite ss siteId).isSome = true) :
    ∃ ss', update_site ss siteId u = .ok ss'
      ∧ ∀ s' ∈ ss', s'.id = siteId → s'.country = c := by
  obtain ⟨site, hsite⟩ := Option.isSome_iff_exists.mp hex
  refine ⟨ss.map fun s => if s.id = siteId then applyUpdate s u else s, ?_, ?_⟩
  · simp [update_site, hsite]
  · intro s' hs' hid
    obtain ⟨s, _, rfl⟩ := List.mem_map.mp hs'
    by_cases h : s.id = siteId
    · subst h
      simp [applyUpdate, hset]
    · simp only [if_neg h] at hid ⊢
      exact absurd hid h

/-- Witness for the amended C5 theorem at a concrete input. -/
theorem update_site_overwrites_country_witness :
    ∃ ss', update_site [demoSite1] 1 ⟨"Site A", none, some SiteCountry.italy⟩ = .ok ss'
      ∧ ∀ s' ∈ ss', s'.id = 1 → s'.country = SiteCountry.italy :=
  update_site_overwrites_country [demoSite1] 1
    ⟨"Site A", none, some SiteCountry.italy⟩ SiteCountry.italy rfl (by decide)

/-- Claim C6: `create_site_france` fails — with the duplicate-date error —
exactly when the request carries a non-null installation date already held
by some `FRANCE`-tagged site (a null date always passes the check), and
every successful creation preserves the system-wide at-most-one-French-site
-per-date invariant. -/
theorem create_site_france_spec (ss : List SiteRec) (newId : Nat) (s : SiteFranceCreate) :
    (create_site_france ss newId s = .error .duplicateFrenchDate ↔
      ∃ d, s.installation_date = some d ∧
        ∃ t ∈ ss, t.country = SiteCountry.france ∧ t.installation_date = some d)
    ∧ (∀ ss', create_site_france ss newId s = .ok ss' →
        UniqueFrenchDates ss → UniqueFrenchDates ss') := by
  constructor
  · cases hdate : s.installation_date with
    | none => simp [create_site_france, hdate]
    | some d =>
      by_cases h : (ss.any fun t =>
          decide (t.country = SiteCountry.france ∧ t.installation_date = some d)) = true
      · have hex := h
        simp only [List.any_eq_true, decide_eq_true_iff] at hex
        simp only [create_site_france, hdate, if_pos h, true_iff]
        exact ⟨d, rfl, hex⟩
      · simp only [create_site_france, hdate, if_neg h]
        simp only [List.any_eq_true, decide_eq_true_iff] at h
        constructor
        · intro hcontra
          exact absurd hcontra (by simp)
        · rintro ⟨d', hd', hex⟩
          cases hd'
          exact absurd hex h
  · intro ss' hok huniq
    have hmk : ∀ idate : Option Nat,
        ss' = ss ++ [⟨newId, s.name, idate, SiteCountry.france, []⟩] →
        (∀ d, idate = some d →
          ¬ ∃ t ∈ ss, t.country = SiteCountry.france ∧ t.installation_date = some d) →
        UniqueFrenchDates ss' := by
      intro idate hss' hfresh
      subst hss'
      refine List.pairwise_append.mpr ⟨huniq, List.pairwise_singleton _ _, ?_⟩
      intro a ha b hb
      simp only [List.mem_singleton] at hb
      subst hb
      intro haf _ d had
      intro hbd
      simp only at hbd
      exact hfresh d hbd ⟨a, ha, haf, had⟩
    cases hdate : s.installation_date with
    | none =>
      simp only [create_site_france, hdate, Except.ok.injEq] at hok
      exact hmk none hok.symm (by intro d hd; cases hd)
    | some d =>
      by_cases h : (ss.any fun t =>
          decide (t.country = SiteCountry.france ∧ t.installation_date = some d)) = true
      · simp only [create_site_france, hdate, if_pos h] at hok
        cases hok
      · simp only [create_site_france, hdate, if_neg h, Except.ok.injEq] at hok
        simp only [List.any_eq_true, decide_eq_true_iff] at h
        refine hmk (some d) hok.symm ?_
        intro d' hd'
        cases hd'
        exact h

/-- Witness for the C6 theorem: with French sites on dates 1 and 3 in the
store, creating another French site on date 3 fails with the duplicate-date
error. -/
theorem create_site_france_witness :
    create_site_france demoSitesFr 3 ⟨"Site C", some 3⟩ = .error .duplicateFrenchDate :=
  ((create_site_france_spec demoSitesFr 3 ⟨"Site C", some 3⟩).1).mpr
    ⟨3, rfl, by decide⟩

/-- Claim C7: `create_site_italy` with a non-null installation date succeeds
exactly when the date's day-of-week index (Monday = 0, Python
`date.weekday`) is 5 or 6 — Saturday or Sunday — and fails with the
weekend-rule error whenever that index is below 5; a null date is always
accepted. -/
theorem create_site_italy_spec (ss : List SiteRec) (newId : Nat) (s : SiteItalyCreate) :
    ((∃ ss', create_site_italy ss newId s = .ok ss') ↔
      s.installation_date = none ∨
        ∃ d, s.installation_date = some d ∧ (weekday d = 5 ∨ weekday d = 6))
    ∧ ∀ d, s.installation_date = some d → weekday d < 5 →
        create_site_italy ss newId s = .error .italianWeekend := by
  have hw : ∀ d : Nat, weekday d < 7 := fun d => Nat.mod_lt _ (by norm_num)
  constructor
  · cases hdate : s.installation_date with
    | none => simp [create_site_italy, hdate]
    | some d =>
      by_cases h : weekday d < 5
      · simp only [create_site_italy, hdate, if_pos h]
        constructor
        · rintro ⟨ss', hss'⟩
          exact absurd hss' (by simp)
        · rintro (hcontra | ⟨d', hd', hwk⟩)
          · cases hcontra
          · cases hd'
            omega
      · simp only [create_site_italy, hdate, if_neg h]
        have := hw d
        constructor
        · intro
          exact Or.inr ⟨d, rfl, by omega⟩
        · intro
          exact ⟨_, rfl⟩
  · intro d hdate h
    simp [create_site_italy, hdate, h]

/-- Witness for the C7 theorem: ordinal 3 (0001-01-03, a Wednesday,
weekday index 2) is rejected with the weekend-rule error. -/
theorem create_site_italy_witness :
    create_site_italy [] 1 ⟨"Site I", some 3⟩ = .error .italianWeekend :=
  (create_site_italy_spec [] 1 ⟨"Site I", some 3⟩).2 3 rfl (by decide)

/-- Claim C8 (counterexample): the claim says the name filter uses
substring matching, so that a site named "Site ABC" is returned when
filtering by name "Site A"; but on a store holding exactly that site the
filtered query returns nothing. -/
theorem name_filter_not_substring_cex :
    "Site ABC" = "Site A" ++ "BC"
    ∧ (read_sites [⟨1, "Site ABC", none, SiteCountry.france, []⟩] 1 10 (some "Site A")).data
        = [] := by
  constructor
  · rfl
  · decide

/-- Claim C8 (amended): the name filter is an exact equality match — a
listed query with a name filter returns precisely the stored sites whose
name equals the filter string, so "Site ABC" is not returned for
name = "Site A". -/
theorem name_filter_exact_match (ss : List SiteRec) (n : String) (s : SiteRec) :
    s ∈ applyNameFilter ss (some n) ↔ s ∈ ss ∧ s.name = n := by
  simp [applyNameFilter, List.mem_filter]

/-- Claim C10: the association endpoint is idempotent — when the site and
group both exist and the site is already associated with the group, adding
it again succeeds (204, not an error) and returns the store unchanged, so
no duplicate association row is ever created. -/
theorem add_site_to_group_idempotent (ss : List SiteRec) (gs : List GroupRec)
    (siteId groupId : Nat) (site : SiteRec)
    (hs : findSite ss siteId = some site)
    (hg : (findGroup gs groupId).isSome = true)
    (hmem : groupId ∈ site.groups) :
    add_site_to_group ss gs siteId groupId = .ok ss := by
  obtain ⟨g, hg'⟩ := Option.isSome_iff_exists.mp hg
  simp [add_site_to_group, hs, hg', hmem]

/-- Witness for the C10 theorem: re-adding group 10 to a site already in
group 10 returns the unchanged store. -/
theorem add_site_to_group_idempotent_witness :
    add_site_to_group [demoSiteInGroup] demoGroups1 1 10 = .ok [demoSiteInGroup] :=
  add_site_to_group_idempotent [demoSiteInGroup] demoGroups1 1 10 demoSiteInGroup
    (by decide) (by decide) (by decide)

/-- A successful `findGroup` lookup returns a record carrying the id that
was looked up. -/
theorem findGroup_id {gs : List GroupRec} {i : Nat} {g : GroupRec}
    (h : findGroup gs i = some g) : g.id = i := by
  induction gs with
  | nil => cases h
  | cons a rest ih =>
    by_cases ha : a.id = i
    · simp only [findGroup, if_pos ha] at h
      cases h
      exact ha
    · simp only [findGroup, if_neg ha] at h
      exact ih h

/-- Setting the parent of group `c` leaves every other lookup unchanged. -/
theorem findGroup_setParentId_ne (gs : List GroupRec) (c p i : Nat) (h : i ≠ c) :
    findGroup (setParentId gs c p) i = findGroup gs i := by
  induction gs with
  | nil => rfl
  | cons a rest ih =>
    have hid : (if a.id = c then { a with parent_id := some p } else a).id = a.id := by
      split <;> rfl
    simp only [setParentId, List.map_cons, findGroup] at ih ⊢
    rw [hid]
    split_ifs with hi hc
    · exact absurd (hi.symm.trans hc) h
    · rfl
    · exact ih

/-- Setting the parent of group `c` updates `c`'s own lookup accordingly. -/
theorem findGroup_setParentId_self (gs : List GroupRec) (c p : Nat) (g : GroupRec)
    (h : findGroup gs c = some g) :
    findGroup (setParentId gs c p) c = some { g with parent_id := some p } := by
  induction gs with
  | nil => cases h
  | cons a rest ih =>
    have hid : (if a.id = c then { a with parent_id := some p } else a).id = a.id := by
      split <;> rfl
    simp only [setParentId, List.map_cons, findGroup] at h ih ⊢
    rw [hid]
    split_ifs with ha
    · rw [if_pos ha] at h
      cases h
      rfl
    · rw [if_neg ha] at h
      exact ih h

/-- The endpoint's ancestor walk raises the cycle error exactly when the
child id occurs in the ancestor chain (at equal fuel). -/
theorem cycleWalk_eq_mem (gs : List GroupRec) (c : Nat) :
    ∀ (fuel : Nat) (o : Option GroupRec),
      cycleWalk gs c fuel o = true ↔ c ∈ ancestors gs fuel o := by
  intro fuel
  induction fuel with
  | zero =>
    intro o
    cases o with
    | none => simp [cycleWalk, ancestors]
    | some cur => simp [cycleWalk, ancestors]
  | succ fuel ih =>
    intro o
    cases o with
    | none => simp [cycleWalk, ancestors]
    | some cur =>
      cases hq : cur.parent_id with
      | none => simp [cycleWalk, ancestors, hq]
      | some q =>
        simp only [cycleWalk, ancestors, hq, Bool.or_eq_true, decide_eq_true_iff,
          List.mem_cons, ih]
        constructor
        · rintro (h | h)
          · exact Or.inl h.symm
          · exact Or.inr h
        · rintro (h | h)
          · exact Or.inl h.symm
          · exact Or.inr h

/-- Reparenting group `c` changes neither the ancestor chain nor root
reachability of any group whose chain does not pass through `c`. -/
theorem walk_setParentId (gs : List GroupRec) (c p : Nat) :
    ∀ (fuel : Nat) (i : Nat), i ≠ c → c ∉ ancestors gs fuel (findGroup gs i) →
      ancestors (setParentId gs c p) fuel (findGroup (setParentId gs c p) i)
          = ancestors gs fuel (findGroup gs i)
        ∧ reachesRoot (setParentId gs c p) fuel (findGroup (setParentId gs c p) i)
          = reachesRoot gs fuel (findGroup gs i) := by
  intro fuel
  induction fuel with
  | zero =>
    intro i hi _
    rw [findGroup_setParentId_ne gs c p i hi]
    cases findGroup gs i <;> exact ⟨rfl, rfl⟩
  | succ fuel ih =>
    intro i hi hmem
    rw [findGroup_setParentId_ne gs c p i hi]
    cases hfo : findGroup gs i with
    | none => exact ⟨rfl, rfl⟩
    | some cur =>
      rw [hfo] at hmem
      cases hq : cur.parent_id with
      | none =>
        constructor <;> simp [ancestors, reachesRoot, hq]
      | some q =>
        simp only [ancestors, hq, List.mem_cons] at hmem
        push_neg at hmem
        obtain ⟨hqc, hmem'⟩ := hmem
        have hstep := ih q (fun hh => hqc hh.symm) hmem'
        constructor
        · simp only [ancestors, hq]
          rw [hstep.1]
        · simp only [reachesRoot, hq]
          exact hstep.2

/-- Claim C2: for every pair of existing groups, `add_child_to_group`
(the `setParent` operation) fails with the self-parent error when the two
ids coincide; fails with the cycle error whenever the child occurs anywhere
in the parent's ancestor chain (not just as immediate parent); and whenever
it succeeds — assuming the parent's chain reached a root in the pre-state,
i.e. the walked portion of the store was cycle-free — the child's new
parent chain terminates at a group with no parent and never revisits the
child. -/
theorem add_child_to_group_spec (gs : List GroupRec) (parentId childId : Nat)
    (hp : (findGroup gs parentId).isSome = true)
    (hc : (findGroup gs childId).isSome = true) :
    (parentId = childId → add_child_to_group gs parentId childId = .error .selfChild)
    ∧ (parentId ≠ childId →
        childId ∈ ancestors gs gs.length (findGroup gs parentId) →
        add_child_to_group gs parentId childId = .error .cycleError)
    ∧ (∀ gs', add_child_to_group gs parentId childId = .ok gs' →
        reachesRoot gs gs.length (findGroup gs parentId) = true →
        reachesRoot gs' (gs'.length + 1) (findGroup gs' childId) = true
        ∧ childId ∉ ancestors gs' (gs'.length + 1) (findGroup gs' childId)) := by
  obtain ⟨parent, hpe⟩ := Option.isSome_iff_exists.mp hp
  obtain ⟨child, hce⟩ := Option.isSome_iff_exists.mp hc
  refine ⟨?_, ?_, ?_⟩
  · intro he
    simp [add_child_to_group, hpe, hce, he]
  · intro hne hmem
    rw [hpe] at hmem
    have hcw : cycleWalk gs childId gs.length (some parent) = true :=
      (cycleWalk_eq_mem gs childId gs.length (some parent)).mpr hmem
    simp [add_child_to_group, hpe, hce, hne, hcw]
  · intro gs' hok hroot
    simp only [add_child_to_group, hpe, hce] at hok
    by_cases hne : parentId = childId
    · rw [if_pos hne] at hok
      cases hok
    · rw [if_neg hne] at hok
      by_cases hcw : cycleWalk gs childId gs.length (some parent) = true
      · rw [if_pos hcw] at hok
        cases hok
      · rw [if_neg hcw] at hok
        cases hok
        have hnotmem : childId ∉ ancestors gs gs.length (findGroup gs parentId) := by
          rw [hpe]
          exact fun hmm => hcw ((cycleWalk_eq_mem gs childId gs.length (some parent)).mpr hmm)
        have hLen : (setParentId gs childId parentId).length = gs.length :=
          List.length_map gs _
        have hchild := findGroup_setParentId_self gs childId parentId child hce
        have hstep := walk_setParentId gs childId parentId gs.length parentId
          hne hnotmem
        constructor
        · rw [hLen, hchild]
          simp only [reachesRoot]
          rw [hstep.2]
          exact hroot
        · rw [hLen, hchild]
          simp only [ancestors, List.mem_cons]
          push_neg
          exact ⟨fun hh => hne hh.symm, by rw [hstep.1]; rw [hpe] at hnotmem ⊢; exact hnotmem⟩

/-- Witness for the C2 theorem: with the chain 1 ← 2 ← 3 (3's ancestors are
2 and 1), making group 1 a child of group 3 is rejected with the cycle
error. -/
theorem add_child_to_group_witness :
    add_child_to_group demoForest 3 1 = .error .cycleError :=
  ((add_child_to_group_spec demoForest 3 1 (by decide) (by decide)).2.1)
    (by decide) (by decide)

/-- Splitting a list into `n` consecutive windows of width `k` at offsets
`0, k, 2k, …` and concatenating them reproduces the list, provided the `n`
windows cover it. -/
theorem flatten_chunks (k : Nat) :
    ∀ (n : Nat) (l : List SiteRec), l.length ≤ n * k →
      ((List.range n).map fun i => (l.drop (i * k)).take k).flatten = l := by
  intro n
  induction n with
  | zero =>
    intro l hl
    have hnil : l = [] := List.length_eq_zero.mp (Nat.le_zero.mp (by simpa using hl))
    simp [hnil]
  | succ n ih =>
    intro l hl
    have hstep : ∀ i : Nat, (l.drop (Nat.succ i * k)).take k
        = ((l.drop k).drop (i * k)).take k := by
      intro i
      rw [List.drop_drop, Nat.succ_mul, Nat.add_comm]
    have hlen : (l.drop k).length ≤ n * k := by
      rw [List.length_drop]
      rw [Nat.succ_mul] at hl
      omega
    rw [List.range_succ_eq_map, List.map_cons, List.map_map]
    simp only [Function.comp_def, hstep, Nat.zero_mul, List.drop_zero, List.flatten_cons]
    rw [ih (l.drop k) hlen, List.take_append_drop]

/-- `⌈N/k⌉` windows of width `k` cover `N` elements. -/
theorem le_ceil_mul (k N : Nat) (hk : 0 < k) : N ≤ ((N + k - 1) / k) * k := by
  have hdm := Nat.div_add_mod (N + k - 1) k
  have hml : (N + k - 1) % k < k := Nat.mod_lt _ hk
  rw [Nat.mul_comm]
  omega

/-- Claim C9: for every store and page size `k ≥ 1`, `read_sites` serves
page `p` as the window of (at most) `k` records starting at offset
`(p-1)*k`, and its `has_more` flag equals
`offset + len(data) < total_count`; consequently reading pages
`1 … ⌈N/k⌉` with no intervening writes concatenates back to exactly the
stored list (so each of the `N` stored ids appears exactly once), and
`has_more` is false exactly on the last of those pages. -/
theorem read_sites_pagination (ss : List SiteRec) (k : Nat) (hk : 0 < k) :
    (∀ p, 0 < p →
      (read_sites ss p k none).data = (ss.drop ((p - 1) * k)).take k
      ∧ ((read_sites ss p k none).has_more = true ↔
          compute_offset p k + (read_sites ss p k none).data.length
            < (read_sites ss p k none).total_count))
    ∧ ((List.range ((ss.length + k - 1) / k)).map
        fun i => (read_sites ss (i + 1) k none).data).flatten = ss
    ∧ (∀ p, 0 < p → p ≤ (ss.length + k - 1) / k →
        ((read_sites ss p k none).has_more = false ↔ p = (ss.length + k - 1) / k)) := by
  have hdata : ∀ p, (read_sites ss p k none).data = (ss.drop ((p - 1) * k)).take k := by
    intro p
    simp [read_sites, paginated_response, get_multi, applyNameFilter, compute_offset]
  have htotal : ∀ p, (read_sites ss p k none).total_count = ss.length := by
    intro p
    simp [read_sites, paginated_response, get_multi, applyNameFilter]
  have hmore : ∀ p, (read_sites ss p k none).has_more = decide (p * k < ss.length) := by
    intro p
    simp [read_sites, paginated_response, get_multi, applyNameFilter]
  have hceil : ∀ p, (ss.length + k - 1) / k ≤ p ↔ ss.length ≤ p * k := by
    intro p
    rw [← Nat.lt_succ_iff, Nat.div_lt_iff_lt_mul hk, Nat.succ_mul]
    omega
  refine ⟨?_, ?_, ?_⟩
  · intro p hp
    refine ⟨hdata p, ?_⟩
    obtain ⟨q, rfl⟩ : ∃ q, p = q + 1 := ⟨p - 1, by omega⟩
    rw [hmore, htotal, hdata, decide_eq_true_iff, compute_offset]
    simp only [Nat.add_sub_cancel, List.length_take, List.length_drop, Nat.succ_mul]
    rw [Nat.min_def]
    split <;> omega
  · have hpage : ∀ i : Nat, (read_sites ss (i + 1) k none).data
        = (ss.drop (i * k)).take k := by
      intro i
      rw [hdata]
      simp only [Nat.add_sub_cancel]
    simp only [hpage]
    exact flatten_chunks k _ ss (le_ceil_mul k ss.length hk)
  · intro p hp hple
    rw [hmore, decide_eq_false_iff_not, Nat.not_lt]
    constructor
    · intro h
      exact Nat.le_antisymm hple ((hceil p).mpr h)
    · intro h
      exact (hceil p).mp (Nat.le_of_eq h.symm)

/-- Witness for the C9 theorem: three stored sites read back in two pages
of two concatenate to the original store. -/
theorem read_sites_pagination_witness :
    ((List.range ((demoSites9.length + 2 - 1) / 2)).map
        fun i => (read_sites demoSites9 (i + 1) 2 none).data).flatten = demoSites9 :=
  (read_sites_pagination demoSites9 2 (by decide)).2.1

end App
